import Mathlib

/-!
Verification of the conversation-orchestration engine of
`optimized_streaming_proxy.py` (a front-protocol ⇄ back-protocol chat proxy
with a bounded tool-calling loop and an SSE frame emitter).

The Python source is shallowly embedded: dynamic JSON dictionaries become
tagged structures, the HTTP/network side effects become oracle functions
(`oracle` for the backend, `tx` for the local tool executor), and every
frame written to the wire is collected in a `List Frame`.  Python exceptions
that can escape the orchestration functions are modelled with `Except`.
-/

set_option maxRecDepth 4000

namespace Proxy

/-- A minimal JSON value type, used where the source copies JSON subtrees
verbatim (tool input schemas). -/
inductive JsonVal where
  | null : JsonVal
  | bool (b : Bool) : JsonVal
  | num (n : Int) : JsonVal
  | str (s : String) : JsonVal
  | arr (elems : List JsonVal) : JsonVal
  | obj (fields : List (String × JsonVal)) : JsonVal

/-- One back-protocol tool call request, as found in
`response['choices'][0]['message']['tool_calls'][i]['function']`:
an identifier, a function name and the raw arguments string. -/
structure ToolCall where
  id : String
  name : String
  arguments : String
deriving Repr, DecidableEq

/-- The back-protocol assistant message `response['choices'][0]['message']`.
`content` models `message.get('content', '')`; `tool_calls` models
`message.get('tool_calls')` with `[]` for the falsy cases (absent/None/empty),
which the source treats identically at `if message.get('tool_calls'):`. -/
structure BackendMessage where
  content : String
  tool_calls : List ToolCall
deriving Repr, DecidableEq

/-- The back-protocol usage block; each counter may be absent, matching
`response.get('usage', {}).get('prompt_tokens', 100)` etc. -/
structure Usage where
  prompt_tokens : Option Nat
  completion_tokens : Option Nat
deriving Repr, DecidableEq

/-- A successfully parsed 200-response of `_call_groq_api`. -/
structure BackendResponse where
  message : BackendMessage
  usage : Option Usage
deriving Repr, DecidableEq

/-- `response.get('usage', {}).get('prompt_tokens', 100)` -/
def BackendResponse.inputTokens (r : BackendResponse) : Nat :=
  match r.usage with
  | none => 100
  | some u => u.prompt_tokens.getD 100

/-- `response.get('usage', {}).get('completion_tokens', 50)` -/
def BackendResponse.outputTokens (r : BackendResponse) : Nat :=
  match r.usage with
  | none => 50
  | some u => u.completion_tokens.getD 50

/-- One entry of the back-protocol conversation list
`conversation_messages`.  Assistant entries additionally carry the
response's tool calls (`'tool_calls': message.get('tool_calls')`), tool
entries carry `'tool_call_id'`. -/
structure ConvMessage where
  role : String
  content : String
  tool_call_id : Option String := none
  tool_calls : List ToolCall := []
deriving Repr, DecidableEq

/-! ### Protocol frames

`_send_event` writes one SSE frame per call.  Every frame the orchestration
code can emit is one of the variants below; the payload fields retained are
the ones the events actually vary in (`message_start`'s constant skeleton and
the constant `index: 0` fields are dropped from the model, the varying parts
are kept). -/

/-- One SSE frame, as produced by `_send_event(event_type, data)`. -/
inductive Frame where
  | message_start (id : String)
  | content_block_start
  | content_block_delta (text : String)
  | content_block_stop
  | message_delta (stop_reason : String) (input_tokens output_tokens : Nat)
  | message_stop
  | error (message : String)
deriving Repr, DecidableEq

/-! ### Front protocol (Anthropic-style) request shapes -/

/-- One element of a `tool_result` item's content list.  The source renders
each element `c` as `str(c.get('text', c))`: when `c` carries a `text` field
that string is used, otherwise the Python string rendering of `c` itself,
abstracted here as `asStr`. -/
structure TRItem where
  text : Option String
  asStr : String
deriving Repr, DecidableEq

/-- The `content` field of a `tool_result` content item
(`item.get('content', '')`).  A missing field or a plain string (or any
non-list value, whose `str(...)` rendering is taken) is `str`; a list of
typed elements is `items`. -/
inductive ToolResultContent where
  | str (s : String)
  | items (l : List TRItem)
deriving Repr, DecidableEq

/-- One typed item of a front message's content list.  Items whose `type`
tag is neither `text` nor `tool_result` are `other`; the source skips them.
A `text` item is assumed to carry its `text` field, per the front protocol. -/
inductive ContentItem where
  | text (t : String)
  | toolResult (content : ToolResultContent)
  | other
deriving Repr, DecidableEq

/-- A front message's `content`: either a plain string or a list of typed
items. -/
inductive FrontContent where
  | str (s : String)
  | items (l : List ContentItem)
deriving Repr, DecidableEq

/-- One front-protocol message (`messages[i]` of the inbound request). -/
structure FrontMessage where
  role : String
  content : FrontContent
deriving Repr, DecidableEq

/-- One front-protocol tool declaration.  `none` models an absent field
(the source tests membership with `'name' in tool and 'input_schema' in
tool`). -/
structure FrontTool where
  name : Option String
  input_schema : Option JsonVal
  description : Option String

/-- A back-protocol (OpenAI-style) function declaration. -/
structure OpenAIFunction where
  name : String
  description : String
  parameters : JsonVal

/-- A back-protocol tool entry (`{'type': 'function', 'function': ...}`). -/
structure OpenAITool where
  type : String
  function : OpenAIFunction

/-! ### Schema Translator: `_convert_messages_to_openai` -/

/-- Rendering of a `tool_result` item's content into `result_text`:
`' '.join([str(c.get('text', c)) for c in result_content])` for lists,
`str(result_content)` otherwise. -/
def renderToolResult : ToolResultContent → String
  | .str s => s
  | .items l => String.intercalate " " (l.map (fun c => c.text.getD c.asStr))

/-- The `text_parts` list accumulated over a content list: `text` items
contribute their text, `tool_result` items contribute
`"Tool result: " ++ <flattened text>`, all other items are skipped. -/
def textParts : List ContentItem → List String
  | [] => []
  | .text t :: rest => t :: textParts rest
  | .toolResult c :: rest => ("Tool result: " ++ renderToolResult c) :: textParts rest
  | .other :: rest => textParts rest

/-- Conversion of one front message, returning `none` when the source
appends nothing for it.  For list content the parts are joined with
`' '.join(text_parts)` and the role is `'user' if role == 'user' else
role`; for string content the message passes through unchanged. -/
def convertMessage (m : FrontMessage) : Option ConvMessage :=
  match m.content with
  | .str s => some { role := m.role, content := s }
  | .items l =>
    if (textParts l).isEmpty then none
    else some { role := if m.role = "user" then "user" else m.role,
                content := String.intercalate " " (textParts l) }

/-- `_convert_messages_to_openai`: the appends of the source loop. -/
def convertMessagesToOpenai (ms : List FrontMessage) : List ConvMessage :=
  ms.filterMap convertMessage

/-! ### Schema Translator: `_convert_tools_to_openai` -/

/-- Conversion of one front tool: kept only when both `name` and
`input_schema` are present; `description` defaults to the empty string,
`parameters` is the input schema itself (`tool.get('input_schema', {})`
with the field known present). -/
def convertTool (t : FrontTool) : Option OpenAITool :=
  match t.name, t.input_schema with
  | some n, some s =>
      some { type := "function",
             function := { name := n, description := t.description.getD "", parameters := s } }
  | _, _ => none

/-- `_convert_tools_to_openai`: the appends of the source loop. -/
def convertToolsToOpenai (ts : List FrontTool) : List OpenAITool :=
  ts.filterMap convertTool

/-! ### `_stream_text_naturally` -/

/-- The whitespace class of Python's `str.split()` (ASCII part). -/
def pyIsSpace (c : Char) : Bool :=
  c = ' ' || c = '\t' || c = '\n' || c = '\r' || c = '\x0b' || c = '\x0c'

/-- Helper for `pySplit`: scans the character list, `acc` holding the
(reversed) current word. -/
def pySplitAux : List Char → List Char → List String
  | [], acc => if acc.isEmpty then [] else [String.mk acc.reverse]
  | c :: cs, acc =>
    if pyIsSpace c then
      (if acc.isEmpty then [] else [String.mk acc.reverse]) ++ pySplitAux cs []
    else
      pySplitAux cs (c :: acc)

/-- Python `text.split()`: split on runs of whitespace, no empty words. -/
def pySplit (s : String) : List String :=
  pySplitAux s.toList []

/-- The delta frame for word number `i` of `n`: the word plus a trailing
space except for the last word. -/
def wordDelta (n : Nat) (iw : Nat × String) : Frame :=
  Frame.content_block_delta (iw.2 ++ (if iw.1 < n - 1 then " " else ""))

/-- `_stream_text_naturally(text)`: nothing for falsy (empty) text;
otherwise a paragraph-separator delta followed by per-word deltas.  The
inter-frame sleeps are timing only and are not modelled. -/
def streamTextNaturally (text : String) : List Frame :=
  if text = "" then []
  else
    let words := pySplit text
    Frame.content_block_delta "\n\n" :: words.enum.map (wordDelta words.length)

/-! ### Tool Loop Controller: `_process_conversation_with_streaming`

The backend is abstracted by an oracle `oracle : Nat → Option BackendResponse`
giving the outcome of the i-th `_call_groq_api` call (`none` models every
"no usable response" case: timeout, non-200 status, transport failure — the
source collapses all of them to `None`).  The local tool executor is
abstracted by `tx : String → String → String` (tool name, arguments →
result text); `execute_tool_locally` always returns a string, its outermost
`except` clause turning any failure into descriptive text. -/

/-- `MAX_TOOL_ITERATIONS` -/
def MAX_TOOL_ITERATIONS : Nat := 15

/-- The assistant entry appended after each successful backend call. -/
def assistantEntry (msg : BackendMessage) : ConvMessage :=
  { role := "assistant", content := msg.content, tool_calls := msg.tool_calls }

/-- The tool entry appended after executing one tool call. -/
def toolEntry (tx : String → String → String) (tc : ToolCall) : ConvMessage :=
  { role := "tool", content := tx tc.name tc.arguments, tool_call_id := some tc.id }

/-- The per-iteration progress frame `🤔 Thinking (step i)...`. -/
def thinkingFrame (i : Nat) : Frame :=
  Frame.content_block_delta ("🤔 Thinking (step " ++ toString i ++ ")...")

/-- The batch progress frame `🔧 Executing <names>...`. -/
def batchFrame (tcs : List ToolCall) : Frame :=
  Frame.content_block_delta
    ("🔧 Executing " ++ String.intercalate ", " (tcs.map (fun tc => tc.name)) ++ "...")

/-- The per-call progress frames `⚙️ <name> (i+1/n)...`, sent only when the
batch has more than one call. -/
def perCallFrames (tcs : List ToolCall) : List Frame :=
  if tcs.length > 1 then
    tcs.enum.map (fun iw =>
      Frame.content_block_delta
        ("⚙️ " ++ iw.2.name ++ " (" ++ toString (iw.1 + 1) ++ "/" ++
          toString tcs.length ++ ")..."))
  else []

/-- The loop-local state: the growing `conversation_messages` list, every
frame emitted so far, the `iteration` and `total_tool_calls` counters, the
number of `_call_groq_api` calls made, and the current value of the Python
`response` variable (overwritten on every call, so `none` after a failed
call even if earlier calls succeeded). -/
structure LoopState where
  conv : List ConvMessage
  frames : List Frame
  iteration : Nat
  backend_calls : Nat
  total_tool_calls : Nat
  response : Option BackendResponse

/-- One loop pass ending in a failed backend call: the thinking frame was
already emitted, the `response` variable is overwritten with `None`, the
conversation is unchanged, and the `break` leaves the loop. -/
def stepFail (st : LoopState) : LoopState :=
  { st with iteration := st.iteration + 1,
            backend_calls := st.backend_calls + 1,
            frames := st.frames ++ [thinkingFrame (st.iteration + 1)],
            response := none }

/-- One loop pass ending in a response with falsy `tool_calls`: the
assistant entry is appended and the `break` leaves the loop. -/
def stepFinal (st : LoopState) (r : BackendResponse) : LoopState :=
  { conv := st.conv ++ [assistantEntry r.message],
    frames := st.frames ++ [thinkingFrame (st.iteration + 1)],
    iteration := st.iteration + 1,
    backend_calls := st.backend_calls + 1,
    total_tool_calls := st.total_tool_calls,
    response := some r }

/-- One loop pass that executes a tool batch: the assistant entry and then
one tool entry per tool call (in the backend's order) are appended, the
batch and per-call progress frames are emitted, and the loop continues. -/
def stepTools (tx : String → String → String) (st : LoopState) (r : BackendResponse) :
    LoopState :=
  { conv := st.conv ++ [assistantEntry r.message] ++
      r.message.tool_calls.map (toolEntry tx),
    frames := st.frames ++ [thinkingFrame (st.iteration + 1)] ++
      batchFrame r.message.tool_calls :: perCallFrames r.message.tool_calls,
    iteration := st.iteration + 1,
    backend_calls := st.backend_calls + 1,
    total_tool_calls := st.total_tool_calls + r.message.tool_calls.length,
    response := some r }

/-- The `while iteration < MAX_TOOL_ITERATIONS` loop.  `fuel` is the number
of remaining permitted iterations (`MAX_TOOL_ITERATIONS - iteration`); each
pass increments `iteration`, emits the thinking frame, performs exactly one
backend call, and either breaks (failed call, or a response with falsy
`tool_calls`) or executes the batch and continues. -/
def runLoop (oracle : Nat → Option BackendResponse) (tx : String → String → String) :
    Nat → LoopState → LoopState
  | 0, st => st
  | fuel + 1, st =>
    match oracle (st.backend_calls + 1) with
    | none => stepFail st
    | some r =>
        if r.message.tool_calls.isEmpty then stepFinal st r
        else runLoop oracle tx fuel (stepTools tx st r)

/-- The Python exceptions that can escape
`_process_conversation_with_streaming` after the loop:
`conversation_messages[-1]` on an empty list raises `IndexError`, and
building the usage block via `response.get(...)` when `response` is `None`
raises `AttributeError`. -/
inductive PyError where
  | index_error
  | attribute_error
deriving Repr, DecidableEq

/-- The `str(e)` rendering forwarded into the SSE error frame. -/
def errText : PyError → String
  | .index_error => "list index out of range"
  | .attribute_error => "NoneType object has no attribute get"

/-- One content block of the final front-protocol response object. -/
structure OutBlock where
  type : String
  text : String
deriving Repr, DecidableEq

/-- The final front-protocol response object built at the end of
`_process_conversation_with_streaming`. -/
structure FinalResponse where
  id : String
  type : String
  role : String
  content : List OutBlock
  model : String
  stop_reason : String
  input_tokens : Nat
  output_tokens : Nat
deriving Repr, DecidableEq

/-- The final-response construction: `final_message = conversation_messages[-1]`
(IndexError on an empty conversation evaluates first), then the response
dictionary whose usage values call `.get` on the possibly-`None` `response`
variable (AttributeError). -/
def buildFinalResponse (message_id : String) (conv : List ConvMessage)
    (response : Option BackendResponse) : Except PyError FinalResponse :=
  match conv.getLast? with
  | none => .error .index_error
  | some final_message =>
    match response with
    | none => .error .attribute_error
    | some r =>
      .ok { id := message_id, type := "message", role := "assistant",
            content := [{ type := "text", text := final_message.content }],
            model := "moonshotai/kimi-k2-instruct",
            stop_reason := "end_turn",
            input_tokens := r.inputTokens,
            output_tokens := r.outputTokens }

/-- The inbound front-protocol request body (the fields the orchestration
reads; `max_tokens`/`temperature` only shape the backend payload, which the
oracle abstracts). -/
structure FrontRequest where
  messages : List FrontMessage
  tools : List FrontTool

/-- The `🔄 Starting...` frame sent before the loop. -/
def startingFrame : Frame := Frame.content_block_delta "🔄 Starting..."

/-- The loop's initial state: the translated conversation, the starting
progress frame already emitted, all counters zero.  The translated tools
(`_convert_tools_to_openai`) only enter the backend payload, which the
oracle abstracts. -/
def initState (req : FrontRequest) : LoopState :=
  { conv := convertMessagesToOpenai req.messages, frames := [startingFrame],
    iteration := 0, backend_calls := 0, total_tool_calls := 0, response := none }

/-- `_process_conversation_with_streaming`: run the loop, then build the
final response.  The returned state carries every frame emitted during
processing; the `Except` is the function's normal return or escaped
exception. -/
def processConversationWithStreaming (oracle : Nat → Option BackendResponse)
    (tx : String → String → String) (req : FrontRequest) (message_id : String) :
    LoopState × Except PyError FinalResponse :=
  let st := runLoop oracle tx MAX_TOOL_ITERATIONS (initState req)
  (st, buildFinalResponse message_id st.conv st.response)

/-! ### The two request handlers -/

/-- `_extract_text_from_response`: the first `text` content block's text. -/
def extractTextFromResponse (r : FinalResponse) : String :=
  match r.content.find? (fun b => b.type = "text") with
  | some b => b.text
  | none => ""

/-- `_send_completion_events`: block stop, message delta (stop reason and
usage), message stop. -/
def sendCompletionEvents (r : FinalResponse) : List Frame :=
  [Frame.content_block_stop,
   Frame.message_delta r.stop_reason r.input_tokens r.output_tokens,
   Frame.message_stop]

/-- The frames following the loop's progress frames: on normal completion
the natural-typing deltas of the final text followed by the completion
events; for an exception escaping the processing (caught by the handler),
one error frame. -/
def streamTail : Except PyError FinalResponse → List Frame
  | .ok r => streamTextNaturally (extractTextFromResponse r) ++ sendCompletionEvents r
  | .error e => [Frame.error (errText e)]

/-- `handle_streaming_conversation`: the complete frame sequence written to
the client.  `message_start` and `content_block_start` are sent first; then
the loop's progress frames; then the tail frames (normal close sequence, or
a single error frame after whatever frames were already sent). -/
def handleStreamingConversation (oracle : Nat → Option BackendResponse)
    (tx : String → String → String) (req : FrontRequest) (message_id : String) :
    List Frame :=
  let p := processConversationWithStreaming oracle tx req message_id
  Frame.message_start message_id :: Frame.content_block_start ::
    (p.1.frames ++ streamTail p.2)

/-- Outcome of the non-streaming handler: a 200 JSON body, or
`send_error(500, ...)` when an exception escapes. -/
inductive HttpResult where
  | json_body (r : FinalResponse)
  | http_error (code : Nat)
deriving Repr, DecidableEq

/-- `handle_complete_conversation` / `_execute_complete_conversation`: the
non-streaming path calls `_process_conversation_with_streaming` directly,
so every frame in the first component is still written to the client
connection by `_send_event` during processing (before the response status
line and the JSON body); an escaped exception becomes an HTTP 500. -/
def handleCompleteConversation (oracle : Nat → Option BackendResponse)
    (tx : String → String → String) (req : FrontRequest) (message_id : String) :
    List Frame × HttpResult :=
  let p := processConversationWithStreaming oracle tx req message_id
  match p.2 with
  | .ok r => (p.1.frames, .json_body r)
  | .error _ => (p.1.frames, .http_error 500)

/-! ### Concrete fixtures used by witnesses and counterexamples -/

/-- A front request with a single plain-text user message. -/
def reqHi : FrontRequest :=
  { messages := [{ role := "user", content := .str "hi" }], tools := [] }

/-- A tool executor returning a fixed result text. -/
def txResult : String → String → String := fun _ _ => "FILES: a b c"

/-- A backend oracle on which every call fails (timeout / non-200 /
transport failure). -/
def oracleFail : Nat → Option BackendResponse := fun _ => none

/-- A backend response carrying one tool call. -/
def respTool : BackendResponse :=
  { message := { content := "Let me check.", tool_calls := [⟨"call_1", "LS", ""⟩] },
    usage := none }

/-- A backend oracle that requests a tool call on every iteration. -/
def oracleAlwaysTool : Nat → Option BackendResponse := fun _ => some respTool

/-- A backend response with plain text and no tool calls. -/
def respPlain : BackendResponse :=
  { message := { content := "ok", tool_calls := [] },
    usage := some { prompt_tokens := some 7, completion_tokens := some 3 } }

/-- A backend oracle answering plain text on every call. -/
def oraclePlain : Nat → Option BackendResponse := fun _ => some respPlain

/-! ### Claim-side helper notions -/

/-- The text of the last `assistant` entry of a conversation (the spec's
notion of the final answer text). -/
def lastAssistantText (conv : List ConvMessage) : Option String :=
  ((conv.filter (fun m => m.role = "assistant")).getLast?).map (fun m => m.content)

/-- Concatenation of a list of strings (the claim's notion of the
concatenation of the word deltas). -/
def concatAll : List String → String
  | [] => ""
  | s :: rest => s ++ concatAll rest

/-- Words joined by single spaces (the whitespace-normalised rendering of a
text). -/
def joinWithSpaces : List String → String
  | [] => ""
  | [w] => w
  | w :: x :: rest => w ++ " " ++ joinWithSpaces (x :: rest)

/-- `true` exactly on `content_block_delta` frames. -/
def Frame.isDelta : Frame → Bool
  | .content_block_delta _ => true
  | _ => false

/-- `true` on a normal return, `false` on an escaped exception. -/
def exceptOk : Except PyError FinalResponse → Bool
  | .ok _ => true
  | .error _ => false

/-! ### Claim C1 -/

/-- C1: the claim says that when every backend call fails, a non-streaming
request still produces a valid JSON response with one empty text block and
placeholder usage 100/50 rather than an HTTP-level error.  The code
disagrees: with a backend that never answers, the final-response build
evaluates `response.get('usage', ...)` on `None` (an `AttributeError`), so
`handle_complete_conversation` answers with `send_error(500, ...)` — an
HTTP-level error and no JSON body at all.  This theorem evaluates the
embedded handler at that failing input. -/
theorem backend_failure_nonstreaming_http_error :
    handleCompleteConversation oracleFail txResult reqHi "msg_1" =
      ([startingFrame, thinkingFrame 1], .http_error 500) ∧
    (processConversationWithStreaming oracleFail txResult reqHi "msg_1").2 =
      .error .attribute_error := by
  exact ⟨by decide, rfl⟩

/-! ### Claim C2 -/

/-- C2: the claim says the final answer text is always the text of the last
assistant entry, never of a tool-result entry.  The code takes
`conversation_messages[-1]`; when the loop terminates at the iteration
ceiling the last entry is a tool-result entry, so the final answer text is
the tool result text and not the last assistant text.  Evaluated here on an
oracle that requests a tool call every iteration: the produced content text
is the tool executor's result, the last assistant text differs, and the last
conversation entry has role `tool`. -/
theorem ceiling_final_text_is_tool_result :
    (processConversationWithStreaming oracleAlwaysTool txResult reqHi "msg_2").2 =
      .ok { id := "msg_2", type := "message", role := "assistant",
            content := [{ type := "text", text := "FILES: a b c" }],
            model := "moonshotai/kimi-k2-instruct", stop_reason := "end_turn",
            input_tokens := 100, output_tokens := 50 } ∧
    lastAssistantText
        (processConversationWithStreaming oracleAlwaysTool txResult reqHi "msg_2").1.conv =
      some "Let me check." ∧
    ((processConversationWithStreaming oracleAlwaysTool txResult reqHi "msg_2").1.conv.getLast?).map
        (fun m => m.role) = some "tool" ∧
    ("FILES: a b c" : String) ≠ "Let me check." := by
  refine ⟨rfl, by decide, by decide, by decide⟩

/-! ### Claim C3 -/

/-- C3: the claim says the non-streaming path emits no protocol frames (the
emitter being replaced by a no-op).  The code reuses
`_process_conversation_with_streaming` without any substitution, so the
progress delta frames are written to the client connection on the
non-streaming path too.  Evaluated here on a plain one-iteration exchange:
two delta frames are emitted alongside the JSON body. -/
theorem nonstreaming_path_emits_frames :
    (handleCompleteConversation oraclePlain txResult reqHi "msg_3").1 =
      [startingFrame, thinkingFrame 1] ∧
    (handleCompleteConversation oraclePlain txResult reqHi "msg_3").1 ≠ [] ∧
    (handleCompleteConversation oraclePlain txResult reqHi "msg_3").2 =
      .json_body { id := "msg_3", type := "message", role := "assistant",
                   content := [{ type := "text", text := "ok" }],
                   model := "moonshotai/kimi-k2-instruct", stop_reason := "end_turn",
                   input_tokens := 7, output_tokens := 3 } := by
  refine ⟨by decide, by decide, rfl⟩

/-! ### Claim C9 (counterexample) -/

/-- C9 counterexample: the claim says the concatenation of the word deltas
equals the final answer text for every text.  For the text `"a  b"` (two
spaces) the emitted word deltas are `"a "` and `"b"`, whose concatenation
`"a b"` differs from the text: `str.split()` collapses whitespace runs. -/
theorem stream_text_counterexample :
    streamTextNaturally "a  b" =
      [Frame.content_block_delta "\n\n", Frame.content_block_delta "a ",
       Frame.content_block_delta "b"] ∧
    concatAll ["a ", "b"] ≠ "a  b" := by
  refine ⟨rfl, by decide⟩

/-- The texts of the word deltas concatenate to the words joined by single
spaces, for any starting index `k` with `n` the index one past the last
word. -/
theorem concat_wordTexts : ∀ (ws : List String) (k n : Nat), n = k + ws.length →
    concatAll ((List.enumFrom k ws).map
        (fun iw => iw.2 ++ if iw.1 < n - 1 then " " else "")) =
      joinWithSpaces ws
  | [], _, _, _ => by simp [List.enumFrom, concatAll, joinWithSpaces]
  | [w], k, n, h => by
      subst h
      simp [List.enumFrom, concatAll, joinWithSpaces]
  | w :: x :: rest, k, n, h => by
      subst h
      have ih := concat_wordTexts (x :: rest) (k + 1) (k + (w :: x :: rest).length)
        (by simp only [List.length_cons]; omega)
      simp only [List.enumFrom, List.map_cons, concatAll] at ih ⊢
      rw [ih, if_pos]
      · simp [joinWithSpaces, String.append_assoc]
      · simp only [List.length_cons]
        omega

/-! ### Claim C9 (amended) -/

/-- C9 amended: for every nonempty final answer text the emitter sends one
paragraph-separator delta and then one delta per whitespace-separated word,
and the concatenation of the word deltas equals the words of the text
joined by single spaces (the whitespace-normalised text, not necessarily
the text itself); for an empty text no frames are sent at all. -/
theorem stream_text_word_deltas (text : String) :
    (text = "" → streamTextNaturally text = []) ∧
    (text ≠ "" →
      ∃ ds : List String,
        streamTextNaturally text =
          Frame.content_block_delta "\n\n" :: ds.map Frame.content_block_delta ∧
        concatAll ds = joinWithSpaces (pySplit text)) := by
  constructor
  · intro h
    simp [streamTextNaturally, h]
  · intro h
    refine ⟨(pySplit text).enum.map
        (fun iw => iw.2 ++ if iw.1 < (pySplit text).length - 1 then " " else ""), ?_, ?_⟩
    · simp [streamTextNaturally, h, wordDelta, List.map_map, Function.comp]
    · have hc := concat_wordTexts (pySplit text) 0 (pySplit text).length (by simp)
      simpa [List.enum] using hc

/-- C9 amended, witness: the conclusion at the concrete text
`"hello world"`. -/
theorem stream_text_word_deltas_witness :
    ∃ ds : List String,
      streamTextNaturally "hello world" =
        Frame.content_block_delta "\n\n" :: ds.map Frame.content_block_delta ∧
      concatAll ds = joinWithSpaces (pySplit "hello world") :=
  (stream_text_word_deltas "hello world").2 (by decide)

/-! ### Claim C7 -/

/-- C7: front-to-back message conversion maps each front message with list
content to at most one back message with the same role (text items
contribute their text, tool-result items contribute `"Tool result: "`
followed by the flattened text, all folded into one content string); a
message whose content list yields no text parts produces no back message;
and a message with string content passes through unchanged. -/
theorem convert_message_characterization (m : FrontMessage) :
    (∀ s, m.content = .str s → convertMessage m = some { role := m.role, content := s }) ∧
    (∀ l, m.content = .items l →
      ((textParts l = [] → convertMessage m = none) ∧
       (textParts l ≠ [] →
         convertMessage m =
           some { role := m.role, content := String.intercalate " " (textParts l) }))) ∧
    (∀ l, textParts l = l.filterMap (fun item =>
        match item with
        | .text t => some t
        | .toolResult c => some ("Tool result: " ++ renderToolResult c)
        | .other => none)) ∧
    (∀ ms : List FrontMessage, (convertMessagesToOpenai ms).length ≤ ms.length) := by
  refine ⟨?_, ?_, ?_, ?_⟩
  · intro s hs
    simp [convertMessage, hs]
  · intro l hl
    constructor
    · intro hp
      simp [convertMessage, hl, hp]
    · intro hp
      simp only [convertMessage, hl]
      rw [if_neg (by simpa using hp)]
      by_cases hr : m.role = "user"
      · simp [hr]
      · simp [hr]
  · intro l
    induction l with
    | nil => simp [textParts]
    | cons i rest ih => cases i <;> simp [textParts, ih]
  · intro ms
    simpa [convertMessagesToOpenai] using List.length_filterMap_le convertMessage ms

/-- C7 witness: a list-content message with a text item, a tool-result item
and a skipped item converts to one message of the same role with the folded
content string. -/
theorem convert_message_characterization_witness :
    convertMessage
        { role := "assistant",
          content := .items
            [ContentItem.text "x", ContentItem.toolResult (.str "out"),
             ContentItem.other] } =
      some { role := "assistant", content := "x Tool result: out" } := by
  have h := ((convert_message_characterization
      { role := "assistant",
        content := .items
          [ContentItem.text "x", ContentItem.toolResult (.str "out"),
           ContentItem.other] }).2.1
      [ContentItem.text "x", ContentItem.toolResult (.str "out"), ContentItem.other]
      rfl).2 (by decide)
  exact h.trans (by rfl)

/-! ### Claim C8 -/

/-- C8: front-to-back tool conversion keeps exactly the tools carrying both
a name and an input-schema field (the rest are skipped); a kept tool
becomes a function declaration with the same name, the schema copied
verbatim as the parameters object and the description defaulted to the
empty string, so that name and schema are recoverable unchanged. -/
theorem convert_tools_valid_lossless :
    (∀ (t : FrontTool) (n : String) (s : JsonVal),
       t.name = some n → t.input_schema = some s →
       convertTool t =
         some { type := "function",
                function := { name := n, description := t.description.getD "",
                              parameters := s } }) ∧
    (∀ t : FrontTool, t.name = none ∨ t.input_schema = none → convertTool t = none) ∧
    (∀ ts : List FrontTool, (convertToolsToOpenai ts).length =
       (ts.filter (fun t => t.name.isSome && t.input_schema.isSome)).length) ∧
    (∀ (t : FrontTool) (n : String) (s : JsonVal),
       t.name = some n → t.input_schema = some s →
       ∃ d, convertTool t = some d ∧ d.function.name = n ∧
         d.function.parameters = s ∧ d.function.description = t.description.getD "" ∧
         d.type = "function") := by
  refine ⟨?_, ?_, ?_, ?_⟩
  · intro t n s hn hs
    simp [convertTool, hn, hs]
  · intro t h
    rcases h with h | h
    · simp [convertTool, h]
    · cases hn : t.name <;> simp [convertTool, hn, h]
  · intro ts
    induction ts with
    | nil => simp [convertToolsToOpenai]
    | cons t rest ih =>
      cases hn : t.name <;> cases hs : t.input_schema <;>
        simp [convertToolsToOpenai, List.filterMap_cons, convertTool, hn, hs,
          List.filter_cons] at ih ⊢ <;> omega
  · intro t n s hn hs
    exact ⟨{ type := "function",
             function := { name := n, description := t.description.getD "",
                           parameters := s } },
           by simp [convertTool, hn, hs], rfl, rfl, rfl, rfl⟩

/-- C8 witness: a concrete valid tool declaration round-trips: name and
schema are recovered unchanged from the converted declaration. -/
theorem convert_tools_valid_lossless_witness :
    ∃ d, convertTool
        { name := some "LS",
          input_schema := some (.obj [("type", .str "object")]),
          description := none } = some d ∧
      d.function.name = "LS" ∧
      d.function.parameters = JsonVal.obj [("type", JsonVal.str "object")] ∧
      d.function.description = (none : Option String).getD "" ∧
      d.type = "function" :=
  convert_tools_valid_lossless.2.2.2
    { name := some "LS",
      input_schema := some (.obj [("type", .str "object")]),
      description := none } "LS" (.obj [("type", .str "object")]) rfl rfl

/-! ### Claim C10 -/

/-- C10: if the first backend response carries zero tool calls, the loop
terminates after exactly one iteration — one backend call — and executes
zero tools. -/
theorem first_iteration_no_tools (oracle : Nat → Option BackendResponse)
    (tx : String → String → String) (req : FrontRequest) (message_id : String)
    (r : BackendResponse) (h1 : oracle 1 = some r)
    (h2 : r.message.tool_calls = []) :
    (processConversationWithStreaming oracle tx req message_id).1.backend_calls = 1 ∧
    (processConversationWithStreaming oracle tx req message_id).1.iteration = 1 ∧
    (processConversationWithStreaming oracle tx req message_id).1.total_tool_calls = 0 := by
  have h15 : MAX_TOOL_ITERATIONS = 14 + 1 := rfl
  simp only [processConversationWithStreaming, h15]
  simp [runLoop, initState, h1, h2, stepFinal]

/-- C10 witness: a backend answering plain text on the first call. -/
theorem first_iteration_no_tools_witness :
    (processConversationWithStreaming oraclePlain txResult reqHi "msg_4").1.backend_calls = 1 ∧
    (processConversationWithStreaming oraclePlain txResult reqHi "msg_4").1.iteration = 1 ∧
    (processConversationWithStreaming oraclePlain txResult reqHi "msg_4").1.total_tool_calls = 0 :=
  first_iteration_no_tools oraclePlain txResult reqHi "msg_4" respPlain rfl rfl

/-! ### Structural lemmas about the loop -/

/-- The per-call progress frames are all deltas. -/
theorem perCallFrames_delta (tcs : List ToolCall) :
    ∀ f ∈ perCallFrames tcs, f.isDelta = true := by
  intro f hf
  unfold perCallFrames at hf
  split at hf
  · simp only [List.mem_map] at hf
    obtain ⟨iw, _, h2⟩ := hf
    rw [← h2]
    rfl
  · simp at hf

/-- Every frame the loop ever emits is a `content_block_delta`. -/
theorem runLoop_frames_delta (oracle : Nat → Option BackendResponse)
    (tx : String → String → String) :
    ∀ (fuel : Nat) (st : LoopState),
      (∀ f ∈ st.frames, f.isDelta = true) →
      ∀ f ∈ (runLoop oracle tx fuel st).frames, f.isDelta = true := by
  intro fuel
  induction fuel with
  | zero => exact fun st h => h
  | succ fuel ih =>
    intro st h
    have hth : ∀ f ∈ st.frames ++ [thinkingFrame (st.iteration + 1)], f.isDelta = true := by
      intro f hf
      rcases List.mem_append.1 hf with h1 | h1
      · exact h f h1
      · simp only [List.mem_singleton] at h1
        rw [h1]
        rfl
    cases ho : oracle (st.backend_calls + 1) with
    | none =>
      simp only [runLoop, ho]
      simpa [stepFail] using hth
    | some r =>
      simp only [runLoop, ho]
      by_cases he : r.message.tool_calls.isEmpty = true
      · rw [if_pos he]
        simpa [stepFinal] using hth
      · rw [if_neg he]
        apply ih
        intro f hf
        simp [stepTools] at hf
        rcases hf with h1 | h1 | h1 | h1
        · exact h f h1
        · rw [h1]; rfl
        · rw [h1]; rfl
        · exact perCallFrames_delta _ f h1

/-- A list of frames that are all deltas is a map of `content_block_delta`
over its texts. -/
theorem all_delta_map : ∀ l : List Frame, (∀ f ∈ l, f.isDelta = true) →
    ∃ ts : List String, l = ts.map Frame.content_block_delta := by
  intro l
  induction l with
  | nil => exact fun _ => ⟨[], rfl⟩
  | cons f rest ih =>
    intro h
    obtain ⟨ts, hts⟩ := ih (fun g hg => h g (List.mem_cons_of_mem f hg))
    have hf := h f (List.mem_cons_self f rest)
    cases f with
    | content_block_delta t => exact ⟨t :: ts, by simp [hts]⟩
    | message_start id => simp [Frame.isDelta] at hf
    | content_block_start => simp [Frame.isDelta] at hf
    | content_block_stop => simp [Frame.isDelta] at hf
    | message_delta a b c => simp [Frame.isDelta] at hf
    | message_stop => simp [Frame.isDelta] at hf
    | error m => simp [Frame.isDelta] at hf

/-- The natural-typing frames are all deltas. -/
theorem streamTextNaturally_delta (text : String) :
    ∀ f ∈ streamTextNaturally text, f.isDelta = true := by
  intro f hf
  unfold streamTextNaturally at hf
  split at hf
  · simp at hf
  · simp only [List.mem_cons, List.mem_map] at hf
    rcases hf with h | ⟨iw, _, h⟩
    · rw [h]; rfl
    · rw [← h]; rfl

/-- The loop only appends to the conversation. -/
theorem runLoop_conv_extend (oracle : Nat → Option BackendResponse)
    (tx : String → String → String) :
    ∀ (fuel : Nat) (st : LoopState),
      ∃ rest, (runLoop oracle tx fuel st).conv = st.conv ++ rest := by
  intro fuel
  induction fuel with
  | zero => exact fun st => ⟨[], by simp [runLoop]⟩
  | succ fuel ih =>
    intro st
    cases ho : oracle (st.backend_calls + 1) with
    | none =>
      simp only [runLoop, ho]
      exact ⟨[], by simp [stepFail]⟩
    | some r =>
      simp only [runLoop, ho]
      by_cases he : r.message.tool_calls.isEmpty = true
      · rw [if_pos he]
        exact ⟨[assistantEntry r.message], by simp [stepFinal]⟩
      · rw [if_neg he]
        obtain ⟨rest, hrest⟩ := ih (stepTools tx st r)
        exact ⟨assistantEntry r.message ::
            (r.message.tool_calls.map (toolEntry tx) ++ rest),
          by rw [hrest]; simp [stepTools]⟩

/-- The loop makes at most `fuel` further backend calls. -/
theorem runLoop_calls_le (oracle : Nat → Option BackendResponse)
    (tx : String → String → String) :
    ∀ (fuel : Nat) (st : LoopState),
      (runLoop oracle tx fuel st).backend_calls ≤ st.backend_calls + fuel := by
  intro fuel
  induction fuel with
  | zero => intro st; simp [runLoop]
  | succ fuel ih =>
    intro st
    cases ho : oracle (st.backend_calls + 1) with
    | none =>
      simp only [runLoop, ho, stepFail]
      omega
    | some r =>
      simp only [runLoop, ho]
      by_cases he : r.message.tool_calls.isEmpty = true
      · rw [if_pos he]
        simp only [stepFinal]
        omega
      · rw [if_neg he]
        have := ih (stepTools tx st r)
        rw [show (stepTools tx st r).backend_calls = st.backend_calls + 1 from rfl] at this
        omega

/-- When every reachable backend call succeeds with at least one tool call,
the loop consumes all its fuel, one backend call per unit. -/
theorem runLoop_calls_exact (oracle : Nat → Option BackendResponse)
    (tx : String → String → String) :
    ∀ (fuel : Nat) (st : LoopState),
      (∀ i, st.backend_calls < i → i ≤ st.backend_calls + fuel →
        ∃ r, oracle i = some r ∧ r.message.tool_calls ≠ []) →
      (runLoop oracle tx fuel st).backend_calls = st.backend_calls + fuel := by
  intro fuel
  induction fuel with
  | zero => intro st _; simp [runLoop]
  | succ fuel ih =>
    intro st h
    obtain ⟨r, hor, hne⟩ := h (st.backend_calls + 1) (by omega) (by omega)
    simp only [runLoop, hor]
    rw [if_neg (by simpa using hne)]

    have hih := ih (stepTools tx st r) (by
      intro i h1 h2
      rw [show (stepTools tx st r).backend_calls = st.backend_calls + 1 from rfl] at h1 h2
      exact h i (by omega) (by omega))
    rw [show (stepTools tx st r).backend_calls = st.backend_calls + 1 from rfl] at hih
    omega

/-- The loop's control flow, counters, emitted frames, terminal `response`
and conversation length do not depend on the tool executor: executor output
only enters tool-entry content strings. -/
theorem runLoop_tx_agnostic (oracle : Nat → Option BackendResponse)
    (tx tx' : String → String → String) :
    ∀ (fuel : Nat) (st st' : LoopState),
      st.iteration = st'.iteration → st.backend_calls = st'.backend_calls →
      st.total_tool_calls = st'.total_tool_calls → st.frames = st'.frames →
      st.response = st'.response → st.conv.length = st'.conv.length →
      ((runLoop oracle tx fuel st).iteration = (runLoop oracle tx' fuel st').iteration ∧
       (runLoop oracle tx fuel st).backend_calls =
         (runLoop oracle tx' fuel st').backend_calls ∧
       (runLoop oracle tx fuel st).total_tool_calls =
         (runLoop oracle tx' fuel st').total_tool_calls ∧
       (runLoop oracle tx fuel st).frames = (runLoop oracle tx' fuel st').frames ∧
       (runLoop oracle tx fuel st).response = (runLoop oracle tx' fuel st').response ∧
       (runLoop oracle tx fuel st).conv.length =
         (runLoop oracle tx' fuel st').conv.length) := by
  intro fuel
  induction fuel with
  | zero =>
    intro st st' h1 h2 h3 h4 h5 h6
    exact ⟨h1, h2, h3, h4, h5, h6⟩
  | succ fuel ih =>
    intro st st' h1 h2 h3 h4 h5 h6
    cases ho : oracle (st.backend_calls + 1) with
    | none =>
      have ho' : oracle (st'.backend_calls + 1) = none := by rw [← h2]; exact ho
      simp only [runLoop, ho, ho']
      simp [stepFail, h1, h2, h3, h4, h6]
    | some r =>
      have ho' : oracle (st'.backend_calls + 1) = some r := by rw [← h2]; exact ho
      simp only [runLoop, ho, ho']
      by_cases he : r.message.tool_calls.isEmpty = true
      · rw [if_pos he, if_pos he]
        simp [stepFinal, h1, h2, h3, h4, h6]
      · rw [if_neg he, if_neg he]
        apply ih <;> simp [stepTools, h1, h2, h3, h4, h6]

/-- Whether the final-response build succeeds depends only on conversation
nonemptiness and on the final `response` variable. -/
theorem buildFinal_ok (message_id : String) (conv : List ConvMessage)
    (response : Option BackendResponse) :
    exceptOk (buildFinalResponse message_id conv response) =
      (decide (conv ≠ []) && response.isSome) := by
  cases conv with
  | nil => cases response <;> simp [buildFinalResponse, exceptOk]
  | cons a l =>
    obtain ⟨m, hm⟩ : ∃ m, (a :: l).getLast? = some m := by
      have h := (List.getLast?_isSome (l := a :: l)).2 (by simp)
      exact Option.isSome_iff_exists.1 h
    cases response <;> simp [buildFinalResponse, exceptOk, hm]

/-! ### Claim C4 -/

/-- C4: every streaming frame sequence begins with exactly one turn-start
frame then exactly one block-start frame, followed only by text deltas, and
ends either with block-stop, turn-delta (carrying the response's stop
reason and usage), turn-stop in that order — or, when an exception escaped
the processing after turn-start, with a single error frame after which
nothing follows. -/
theorem streaming_frame_order (oracle : Nat → Option BackendResponse)
    (tx : String → String → String) (req : FrontRequest) (message_id : String) :
    ∃ ts : List String,
      (∃ r, (processConversationWithStreaming oracle tx req message_id).2 = .ok r ∧
        handleStreamingConversation oracle tx req message_id =
          Frame.message_start message_id :: Frame.content_block_start ::
            (ts.map Frame.content_block_delta ++
              [Frame.content_block_stop,
               Frame.message_delta r.stop_reason r.input_tokens r.output_tokens,
               Frame.message_stop])) ∨
      (∃ e, (processConversationWithStreaming oracle tx req message_id).2 = .error e ∧
        handleStreamingConversation oracle tx req message_id =
          Frame.message_start message_id :: Frame.content_block_start ::
            (ts.map Frame.content_block_delta ++ [Frame.error (errText e)])) := by
  have hdelta : ∀ f ∈ (processConversationWithStreaming oracle tx req message_id).1.frames,
      f.isDelta = true := by
    have hfst : (processConversationWithStreaming oracle tx req message_id).1 =
        runLoop oracle tx MAX_TOOL_ITERATIONS (initState req) := rfl
    rw [hfst]
    apply runLoop_frames_delta
    intro f hf
    simp only [initState, List.mem_singleton] at hf
    rw [hf]
    rfl
  have hsplit : handleStreamingConversation oracle tx req message_id =
      Frame.message_start message_id :: Frame.content_block_start ::
        ((processConversationWithStreaming oracle tx req message_id).1.frames ++
          streamTail (processConversationWithStreaming oracle tx req message_id).2) := rfl
  cases hout : (processConversationWithStreaming oracle tx req message_id).2 with
  | ok r =>
    have hall : ∀ f ∈ (processConversationWithStreaming oracle tx req message_id).1.frames ++
        streamTextNaturally (extractTextFromResponse r), f.isDelta = true := by
      intro f hf
      rcases List.mem_append.1 hf with h | h
      · exact hdelta f h
      · exact streamTextNaturally_delta _ f h
    obtain ⟨ts, hts⟩ := all_delta_map _ hall
    refine ⟨ts, Or.inl ⟨r, rfl, ?_⟩⟩
    rw [hsplit, hout]
    simp only [streamTail]
    rw [← List.append_assoc, hts]
    simp [sendCompletionEvents]
  | error e =>
    obtain ⟨ts, hts⟩ := all_delta_map _ hdelta
    refine ⟨ts, Or.inr ⟨e, rfl, ?_⟩⟩
    rw [hsplit, hout]
    simp only [streamTail]
    rw [hts]

/-! ### Claim C5 -/

/-- C5: each tool-call request of a backend response yields exactly one
tool conversation entry, in the backend's order, carrying that request's
identifier and the executor's result text (execution failures being
ordinary result text from the executor); and the executor's output never
influences the loop's control flow, its frames, or whether the
orchestration fails. -/
theorem tool_requests_one_to_one :
    (∀ (tx : String → String → String) (tcs : List ToolCall),
      (tcs.map (toolEntry tx)).map (fun m => (m.role, m.tool_call_id)) =
        tcs.map (fun tc => ("tool", some tc.id)) ∧
      (tcs.map (toolEntry tx)).map (fun m => m.content) =
        tcs.map (fun tc => tx tc.name tc.arguments)) ∧
    (∀ (oracle : Nat → Option BackendResponse) (tx : String → String → String)
        (fuel : Nat) (st : LoopState) (r : BackendResponse),
      oracle (st.backend_calls + 1) = some r → r.message.tool_calls ≠ [] →
      ∃ rest, (runLoop oracle tx (fuel + 1) st).conv =
        st.conv ++ assistantEntry r.message ::
          (r.message.tool_calls.map (toolEntry tx) ++ rest)) ∧
    (∀ (oracle : Nat → Option BackendResponse) (tx tx' : String → String → String)
        (req : FrontRequest) (message_id : String),
      exceptOk (processConversationWithStreaming oracle tx req message_id).2 =
        exceptOk (processConversationWithStreaming oracle tx' req message_id).2 ∧
      (processConversationWithStreaming oracle tx req message_id).1.frames =
        (processConversationWithStreaming oracle tx' req message_id).1.frames) := by
  refine ⟨?_, ?_, ?_⟩
  · intro tx tcs
    constructor
    · rw [List.map_map]; rfl
    · rw [List.map_map]; rfl
  · intro oracle tx fuel st r ho hne
    simp only [runLoop, ho]
    rw [if_neg (by simpa using hne)]
    obtain ⟨rest, hrest⟩ := runLoop_conv_extend oracle tx fuel (stepTools tx st r)
    refine ⟨rest, ?_⟩
    rw [hrest]
    simp [stepTools]
  · intro oracle tx tx' req message_id
    obtain ⟨-, -, -, hframes, hresp, hlen⟩ := runLoop_tx_agnostic oracle tx tx'
      MAX_TOOL_ITERATIONS (initState req) (initState req) rfl rfl rfl rfl rfl rfl
    constructor
    · have h1 : (processConversationWithStreaming oracle tx req message_id).2 =
          buildFinalResponse message_id
            (runLoop oracle tx MAX_TOOL_ITERATIONS (initState req)).conv
            (runLoop oracle tx MAX_TOOL_ITERATIONS (initState req)).response := rfl
      have h2 : (processConversationWithStreaming oracle tx' req message_id).2 =
          buildFinalResponse message_id
            (runLoop oracle tx' MAX_TOOL_ITERATIONS (initState req)).conv
            (runLoop oracle tx' MAX_TOOL_ITERATIONS (initState req)).response := rfl
      rw [h1, h2, buildFinal_ok, buildFinal_ok, hresp]
      have hne : ((runLoop oracle tx MAX_TOOL_ITERATIONS (initState req)).conv = []) ↔
          ((runLoop oracle tx' MAX_TOOL_ITERATIONS (initState req)).conv = []) := by
        rw [← List.length_eq_zero, ← List.length_eq_zero, hlen]
      congr 1
      exact decide_eq_decide.2 (not_congr hne)
    · exact hframes

/-- C5 witness: the first loop pass on a backend requesting one tool call
appends the assistant entry followed by exactly the batch's tool entries. -/
theorem tool_requests_one_to_one_witness :
    ∃ rest, (runLoop oracleAlwaysTool txResult (14 + 1) (initState reqHi)).conv =
      (initState reqHi).conv ++ assistantEntry respTool.message ::
        (respTool.message.tool_calls.map (toolEntry txResult) ++ rest) :=
  tool_requests_one_to_one.2.1 oracleAlwaysTool txResult 14 (initState reqHi) respTool
    rfl (by decide)

/-! ### Claim C6 -/

/-- C6: one request's loop never performs more than `MAX_TOOL_ITERATIONS`
(15) backend calls, and when every backend response up to the ceiling
carries at least one tool call it performs exactly 15 backend calls and
terminates. -/
theorem backend_call_ceiling (oracle : Nat → Option BackendResponse)
    (tx : String → String → String) (req : FrontRequest) (message_id : String) :
    (processConversationWithStreaming oracle tx req message_id).1.backend_calls ≤
      MAX_TOOL_ITERATIONS ∧
    ((∀ i, 1 ≤ i → i ≤ MAX_TOOL_ITERATIONS →
        ∃ r, oracle i = some r ∧ r.message.tool_calls ≠ []) →
      (processConversationWithStreaming oracle tx req message_id).1.backend_calls =
        MAX_TOOL_ITERATIONS) := by
  have hfst : (processConversationWithStreaming oracle tx req message_id).1 =
      runLoop oracle tx MAX_TOOL_ITERATIONS (initState req) := rfl
  constructor
  · rw [hfst]
    have h := runLoop_calls_le oracle tx MAX_TOOL_ITERATIONS (initState req)
    simpa [initState] using h
  · intro h
    rw [hfst]
    have hx := runLoop_calls_exact oracle tx MAX_TOOL_ITERATIONS (initState req) (by
      intro i h1 h2
      simp only [initState] at h1 h2
      exact h i (by omega) (by omega))
    simpa [initState] using hx

/-- C6 witness: with a backend requesting tools on every call, the loop
makes exactly 15 backend calls. -/
theorem backend_call_ceiling_witness :
    (processConversationWithStreaming oracleAlwaysTool txResult reqHi "msg_5").1.backend_calls =
      MAX_TOOL_ITERATIONS :=
  (backend_call_ceiling oracleAlwaysTool txResult reqHi "msg_5").2
    (fun _ _ _ => ⟨respTool, rfl, by decide⟩)

end Proxy
